import Mathlib

/-!
pulsarpoint/notify: the dispatch engine and its backend adapters

A shallow embedding of `send.go`, `service/pushbullet/pushbullet.go` and
`service/wechat/wechat.go`, followed by the properties each one satisfies.

Conventions of the embedding

* Go's `error` interface is `Option GoError`: `none` is `nil`.
* Go's `context.Context` interface is `Option Context`: `none` is a nil context.
* Side effects on the outside world (a notifier being called, a note being
  pushed, a customer message being handed to the message manager) are recorded
  in an explicit log that every effectful operation extends on the right.
* Goroutines started through `errgroup.Group.Go` run to completion one at a
  time, in an order chosen by an explicit schedule; every completion order is
  produced by some schedule.
* `log.Printf` calls write to the process log only and are left out.
* `New` and `WaitForOneOffVerification` of `wechat.go` build and run network
  clients; they take no part in `Send` and are not embedded.
-/

set_option autoImplicit false

namespace notify

/-! ## Errors (`github.com/pkg/errors`) -/

/-- Non-nil Go error values. `fundamental` is what `errors.New` builds (and
stands for any leaf error), `withMessage` and `withStack` are the two wrappers
of `github.com/pkg/errors`; recorded call stacks are left out. -/
inductive GoError where
  | fundamental (msg : String)
  | withMessage (cause : GoError) (msg : String)
  | withStack (err : GoError)
  deriving DecidableEq, Repr

/-- Go's `error` interface type: `none` is `nil`. -/
abbrev error := Option GoError

/-- The `Error()` method: `withMessage` renders as `msg + ": " + cause.Error()`,
`withStack` as the text of the error it carries. -/
def GoError.Error : GoError → String
  | .fundamental msg => msg
  | .withMessage cause msg => msg ++ ": " ++ cause.Error
  | .withStack err => err.Error

namespace errors

/-- `errors.New(message)`. -/
def New (message : String) : GoError := .fundamental message

/-- `errors.Wrap(err, message)`: nil for a nil `err`, otherwise
`&withStack{&withMessage{cause: err, msg: message}, callers()}`. -/
def Wrap (err : error) (message : String) : error :=
  match err with
  | none => none
  | some e => some (.withStack (.withMessage e message))

/-- `errors.Wrapf(err, format, args...)`, applied to the already formatted
message: the same wrapping as `Wrap`. -/
def Wrapf (err : error) (formatted : String) : error :=
  match err with
  | none => none
  | some e => some (.withStack (.withMessage e formatted))

/-- `errors.Cause(err)`: follows `Cause()` through the wrappers down to the
first error that has no cause. -/
def Cause : GoError → GoError
  | .fundamental msg => .fundamental msg
  | .withMessage cause _ => Cause cause
  | .withStack err => Cause err

end errors

/-- `strings.Contains(s, substr)` as a proposition on the characters. -/
def Contains (s substr : String) : Prop := substr.data <:+: s.data

instance (s substr : String) : Decidable (Contains s substr) :=
  inferInstanceAs (Decidable (substr.data <:+: s.data))

/-! ## Contexts (`context`) -/

/-- A non-nil `context.Context`. `cancelledFrom = some k` means the `Done`
channel is found closed from the `k`-th time the callee polls it on (`some 0`:
cancelled before the call); `none` means it is never closed. `reason` is what
`Err()` returns once it is closed. -/
structure Context where
  id : Nat
  cancelledFrom : Option Nat
  reason : GoError
  deriving DecidableEq, Repr

/-- Go's `context.Context` interface type: `none` is a nil context. -/
abbrev GoContext := Option Context

/-- `context.Background()`: never cancelled. -/
def Context.Background : Context :=
  { id := 0, cancelledFrom := none, reason := .fundamental "context canceled" }

/-- Whether `<-ctx.Done()` is ready at the `poll`-th poll. -/
def Context.Done (c : Context) (poll : Nat) : Bool :=
  match c.cancelledFrom with
  | none => false
  | some k => decide (k ≤ poll)

/-- `ctx.Err()` at the `poll`-th poll. -/
def Context.Err (c : Context) (poll : Nat) : error :=
  if c.Done poll then some c.reason else none

/-! ## The Notifier capability and the engine's data -/

/-- One recorded call of a notifier's `Send`: which notifier (by identity) and
the three arguments it received. -/
structure Invocation where
  service : Nat
  ctx : GoContext
  subject : String
  message : String
  deriving DecidableEq, Repr

/-- The log of notifier invocations, oldest first. -/
abbrev World := List Invocation

/-- Modelled from the spec: the `Notifier` interface is declared outside the
given sources; `send.go` calls `service.Send(ctx, subject, message)` and uses
the result as an `error`. A notifier value has an identity `addr` and a
behaviour `reply` giving the error its `Send` returns for given arguments. -/
structure Notifier where
  addr : Nat
  reply : GoContext → String → String → error

/-- The record a call of `s.Send(ctx, subject, message)` leaves in the log. -/
def Notifier.record (ctx : GoContext) (subject message : String) (s : Notifier) : Invocation :=
  { service := s.addr, ctx := ctx, subject := subject, message := message }

/-- The notifier's `Send`, instrumented: it appends its invocation record to the
log and returns its reply. -/
def Notifier.Send (s : Notifier) (ctx : GoContext) (subject message : String)
    (w : World) : error × World :=
  (s.reply ctx subject message, w ++ [s.record ctx subject message])

/-- The engine: the `Disabled` flag and the registered notifier slots, a slot
being `none` when it holds a nil interface value. -/
structure Notify where
  Disabled : Bool
  notifiers : List (Option Notifier)

/-! ## `golang.org/x/sync/errgroup` -/

namespace errgroup

/-- A `func() error` closure acting on the invocation log. -/
abbrev Task := World → error × World

/-- A zero-value `errgroup.Group` (no cancel function, no limit): the error
stored through `errOnce` and the goroutines started by `Go` that have not
completed yet, in start order. -/
structure Group where
  err : error
  pending : List Task

/-- The zero `Group` of `var eg errgroup.Group`. -/
def Group.zero : Group := { err := none, pending := [] }

/-- `g.Go(f)`: start a goroutine for `f`. -/
def Group.Go (g : Group) (f : Task) : Group :=
  { g with pending := g.pending ++ [f] }

/-- The body of one goroutine,
`if err := f(); err != nil { g.errOnce.Do(func() { g.err = err }) }`,
on the pair of the stored error and the log: only the first non-nil error is
stored. -/
def Group.complete (st : error × World) (f : Task) : error × World :=
  match f st.2 with
  | (none, w) => (st.1, w)
  | (some e, w) =>
    match st.1 with
    | none => (some e, w)
    | some first => (some first, w)

/-- The order in which the started goroutines complete under a schedule: at
each step the scheduler picks the `k`-th of the goroutines still pending, `k`
being the next number of the schedule (`0` once the schedule is used up)
reduced modulo the number of pending goroutines. `fuel` bounds the number of
steps; the number of goroutines is enough. -/
def completionOrder {α : Type} : Nat → List Nat → List α → List α
  | 0, _, _ => []
  | _ + 1, _, [] => []
  | fuel + 1, sched, t :: ts =>
    let k := sched.headD 0 % (ts.length + 1)
    (t :: ts).getD k t :: completionOrder fuel sched.tail ((t :: ts).eraseIdx k)

/-- `g.Wait()`: blocks until every started goroutine has completed, then
returns the stored error. -/
def Group.Wait (g : Group) (sched : List Nat) (w : World) : error × World :=
  (completionOrder g.pending.length sched g.pending).foldl Group.complete (g.err, w)

end errgroup

/-! ## `send.go` -/

/-- The `send` method of `send.go`. `ErrSendNotification` is the package's
sentinel error, declared outside the given sources and taken as a parameter;
`sched` is the goroutine schedule of this call. -/
def Notify.send (ErrSendNotification : GoError) (n : Notify) (sched : List Nat)
    (ctx : GoContext) (subject message : String) (w : World) : error × World :=
  if n.Disabled then
    (none, w)
  else
    let ctx : GoContext :=
      match ctx with
      | none => some Context.Background
      | some c => some c
    let eg := n.notifiers.foldl
      (fun (eg : errgroup.Group) (service : Option Notifier) =>
        match service with
        | none => eg
        | some service => eg.Go (fun w => service.Send ctx subject message w))
      errgroup.Group.zero
    match eg.Wait sched w with
    | (some err, w) => (errors.Wrap (some ErrSendNotification) err.Error, w)
    | (none, w) => (none, w)

/-- The exported `Send` method of `send.go`: delegates to `send`. -/
def Notify.Send (ErrSendNotification : GoError) (n : Notify) (sched : List Nat)
    (ctx : GoContext) (subject message : String) (w : World) : error × World :=
  n.send ErrSendNotification sched ctx subject message w

/-- The package-level `Send` of `send.go`: delegates to the default engine
`std`, declared outside the given sources and taken as a parameter. -/
def Send (ErrSendNotification : GoError) (std : Notify) (sched : List Nat)
    (ctx : GoContext) (subject message : String) (w : World) : error × World :=
  std.Send ErrSendNotification sched ctx subject message w

/-! ## `service/pushbullet/pushbullet.go` -/

namespace pushbullet

/-- One note handed to the Pushbullet API: the target device and the note's
title and body. -/
structure Push where
  device : String
  title : String
  body : String
  deriving DecidableEq, Repr

/-- A device of `github.com/cschomburg/go-pushbullet`: its identifier and the
error its `PushNote` returns for a given title and body. -/
structure Device where
  Iden : String
  reply : String → String → error

/-- `dev.PushNote(title, body)`, instrumented: the note is appended to the log
of pushes. -/
def Device.PushNote (dev : Device) (title body : String) (w : List Push) :
    error × List Push :=
  (dev.reply title body, w ++ [{ device := dev.Iden, title := title, body := body }])

/-- The client of `github.com/cschomburg/go-pushbullet`: `Device(nickname)`
returns a device or an error. -/
structure Client where
  Device : String → Except GoError Device

/-- The `Pushbullet` struct. -/
structure Pushbullet where
  client : Client
  deviceNicknames : List String

/-- `New`, given the client `pushbullet.New(apiToken)` builds. -/
def New (client : Client) : Pushbullet :=
  { client := client, deviceNicknames := [] }

/-- `AddReceivers`: appends the nicknames. -/
def Pushbullet.AddReceivers (pb : Pushbullet) (deviceNicknames : List String) : Pushbullet :=
  { pb with deviceNicknames := pb.deviceNicknames ++ deviceNicknames }

/-- The message `Send` passes to `errors.Wrapf` for a nickname. -/
def failedToSend (deviceNickname : String) : String :=
  "failed to send message to Pushbullet device with nickname '" ++ deviceNickname ++ "'"

/-- The `for ... range pb.deviceNicknames` loop of `Send` over the nicknames
still to visit. -/
def Pushbullet.sendLoop (pb : Pushbullet) (subject message : String) :
    List String → List Push → error × List Push
  | [], w => (none, w)
  | deviceNickname :: rest, w =>
    match pb.client.Device deviceNickname with
    | .error _ => pb.sendLoop subject message rest w
    | .ok dev =>
      match dev.PushNote subject message w with
      | (some err, w) => (errors.Wrapf (some err) (failedToSend deviceNickname), w)
      | (none, w) => pb.sendLoop subject message rest w

/-- `Send(subject, message string) error` of `pushbullet.go`. -/
def Pushbullet.Send (pb : Pushbullet) (subject message : String) (w : List Push) :
    error × List Push :=
  pb.sendLoop subject message pb.deviceNicknames w

end pushbullet

/-! ## `service/wechat/wechat.go` -/

namespace wechat

/-- The `Config` struct. -/
structure Config where
  AppID : String
  AppSecret : String
  Token : String
  EncodingAESKey : String
  deriving DecidableEq, Repr

/-- The fields of `message.CustomerMessage` a text message sets. -/
structure CustomerMessage where
  ToUser : String
  Msgtype : String
  Text : String
  deriving DecidableEq, Repr

/-- `message.NewCustomerTextMessage(toUser, text)`. -/
def NewCustomerTextMessage (toUser text : String) : CustomerMessage :=
  { ToUser := toUser, Msgtype := "text", Text := text }

/-- The `wechatMessageManager` interface: the error `Send` returns for a given
message. -/
structure wechatMessageManager where
  reply : CustomerMessage → error

/-- The manager's `Send`, instrumented: the message is appended to the log of
messages the manager received. -/
def wechatMessageManager.Send (m : wechatMessageManager) (msg : CustomerMessage)
    (w : List CustomerMessage) : error × List CustomerMessage :=
  (m.reply msg, w ++ [msg])

/-- The `Service` struct. -/
structure Service where
  config : Config
  messageManager : wechatMessageManager
  userIDs : List String

/-- `AddReceivers`: appends the user ids. -/
def Service.AddReceivers (s : Service) (userIDs : List String) : Service :=
  { s with userIDs := s.userIDs ++ userIDs }

/-- How a call ends: it returns an error value, or it panics at run time. -/
inductive Outcome where
  | returned (err : error)
  | panicked
  deriving DecidableEq, Repr

/-- The message `Send` passes to `errors.Wrapf` for a user. -/
def failedToSend (userID : String) : String :=
  "failed to send message to WeChat user '" ++ userID ++ "'"

/-- The `for ... range s.userIDs` loop of `Send` over the user ids still to
visit; `poll` counts the polls of `ctx.Done()` made so far. Calling `Done` on a
nil context panics. -/
def Service.sendLoop (s : Service) (ctx : GoContext) (subject content : String) :
    Nat → List String → List CustomerMessage → Outcome × List CustomerMessage
  | _, [], w => (.returned none, w)
  | poll, userID :: rest, w =>
    match ctx with
    | none => (.panicked, w)
    | some c =>
      if c.Done poll then
        (.returned (c.Err poll), w)
      else
        let text := subject ++ "\n" ++ content
        match s.messageManager.Send (NewCustomerTextMessage userID text) w with
        | (some err, w) => (.returned (errors.Wrapf (some err) (failedToSend userID)), w)
        | (none, w) => s.sendLoop ctx subject content (poll + 1) rest w

/-- `Send(ctx context.Context, subject, content string) error` of `wechat.go`. -/
def Service.Send (s : Service) (ctx : GoContext) (subject content : String)
    (w : List CustomerMessage) : Outcome × List CustomerMessage :=
  s.sendLoop ctx subject content 0 s.userIDs w

end wechat

/-! ## Method signatures and interface satisfaction -/

/-- A Go method signature: the method's name and the types of its parameters
and results, each written as in the source. -/
structure Method where
  name : String
  params : List String
  results : List String
  deriving DecidableEq, Repr

/-- Modelled from the spec: the `Notifier` interface is declared outside the
given sources; its one method is `Send(ctx, subject, message) -> error`, the
call `send.go` makes on every registered service. -/
def NotifierInterface : List Method :=
  [{ name := "Send", params := ["context.Context", "string", "string"], results := ["error"] }]

/-- The method set of `*pushbullet.Pushbullet`, from the declarations of
`pushbullet.go`. -/
def pushbullet.methodSet : List Method :=
  [{ name := "AddReceivers", params := ["...string"], results := [] },
   { name := "Send", params := ["string", "string"], results := ["error"] }]

/-- The method set of `*wechat.Service`, from the declarations of `wechat.go`. -/
def wechat.methodSet : List Method :=
  [{ name := "WaitForOneOffVerification",
     params := ["string", "bool", "func(r *http.Request, verified bool)"],
     results := ["error"] },
   { name := "AddReceivers", params := ["...string"], results := [] },
   { name := "Send", params := ["context.Context", "string", "string"], results := ["error"] }]

/-- Go's rule for a type implementing an interface: every method of the
interface is in the type's method set with the same name and signature. -/
def implements (methodSet iface : List Method) : Bool :=
  iface.all (fun m => methodSet.contains m)

/-- Whether a call `x.name(args...)` with arguments of the given types and one
result of type `error` type-checks against a method set. -/
def acceptsCall (methodSet : List Method) (name : String) (args : List String) : Bool :=
  methodSet.any (fun m => m.name == name && m.params == args && m.results == ["error"])

/-! ## Auxiliary definitions used to state the properties -/

/-- The non-nil notifiers of the engine, in registration order. -/
def Notify.registered (n : Notify) : List Notifier := n.notifiers.filterMap id

/-- The context `send` hands to the notifiers: the caller's, or the background
context when the caller's is nil. -/
def effectiveCtx (ctx : GoContext) : GoContext := some (ctx.getD Context.Background)

/-- The order in which the notifiers of one `Send` call complete under a
schedule. -/
def Notify.completion (n : Notify) (sched : List Nat) : List Notifier :=
  errgroup.completionOrder n.registered.length sched n.registered

/-- The error of the first notifier of a list that fails, if any. -/
def firstFailure (ctx : GoContext) (subject message : String) (l : List Notifier) : error :=
  l.findSome? (fun s => s.reply ctx subject message)

/-- The closure `send` starts for a notifier. -/
def sendTask (ctx : GoContext) (subject message : String) (s : Notifier) : errgroup.Task :=
  fun w => s.Send ctx subject message w

/-- The registration list with the nil slots removed, in the spec's words for
P2 ("the same list with absent slots removed"). -/
def removeNilSlots (n : Notify) : Notify :=
  { n with notifiers := n.notifiers.filter (fun slot => slot.isSome) }

/-- The note `Send` pushes for a nickname: none when the device lookup fails. -/
def pushbullet.Pushbullet.noteFor (pb : pushbullet.Pushbullet) (subject message : String)
    (deviceNickname : String) : Option pushbullet.Push :=
  match pb.client.Device deviceNickname with
  | .error _ => none
  | .ok dev => some { device := dev.Iden, title := subject, body := message }

/-- The customer text message `Send` builds for a user. -/
def wechat.textFor (subject content : String) (userID : String) : wechat.CustomerMessage :=
  wechat.NewCustomerTextMessage userID (subject ++ "\n" ++ content)

/-! ## Example values -/

/-- An example sentinel, built by `errors.New`. -/
def exampleSentinel : GoError := errors.New "send notification"

/-- A notifier that succeeds. -/
def exampleA : Notifier := { addr := 1, reply := fun _ _ _ => none }

/-- A notifier that fails with "device unreachable". -/
def exampleB : Notifier :=
  { addr := 2, reply := fun _ _ _ => some (errors.New "device unreachable") }

/-- A notifier that fails with "quota exceeded". -/
def exampleC : Notifier :=
  { addr := 3, reply := fun _ _ _ => some (errors.New "quota exceeded") }

/-- A caller's context that is never cancelled. -/
def exampleCtx : Context :=
  { id := 7, cancelledFrom := none, reason := errors.New "context canceled" }

/-- The spec's scenario: A succeeds, B fails, the third slot is absent. -/
def exampleEngine : Notify :=
  { Disabled := false, notifiers := [some exampleA, some exampleB, none] }

/-- The same notifiers on a disabled engine. -/
def exampleDisabled : Notify :=
  { Disabled := true, notifiers := [some exampleA, some exampleB, none] }

/-- An engine on which two notifiers fail. -/
def exampleTwoFail : Notify :=
  { Disabled := false, notifiers := [some exampleB, none, some exampleC] }

/-- A Pushbullet client that knows the devices "phone" (pushes succeed) and
"tablet" (pushes fail with "rate limited") and no other. -/
def examplePushClient : pushbullet.Client :=
  { Device := fun nick =>
      if nick = "phone" then .ok { Iden := "dev-phone", reply := fun _ _ => none }
      else if nick = "tablet" then
        .ok { Iden := "dev-tablet", reply := fun _ _ => some (errors.New "rate limited") }
      else .error (errors.New "device not found") }

/-- A WeChat service whose message manager rejects messages to "u1" and that
has no receivers yet. -/
def exampleWeChat : wechat.Service :=
  { config := { AppID := "", AppSecret := "", Token := "", EncodingAESKey := "" },
    messageManager :=
      { reply := fun msg => if msg.ToUser = "u1" then some (errors.New "blocked") else none },
    userIDs := [] }

/-! ## Lemmas on schedules and on the engine -/

theorem getD_cons_eraseIdx_perm {α : Type} (l : List α) (k : Nat) (d : α) (hk : k < l.length) :
    (l.getD k d :: l.eraseIdx k).Perm l := by
  induction l generalizing k with
  | nil => simp at hk
  | cons a l ih =>
    cases k with
    | zero => simp
    | succ k =>
      have hk2 : k < l.length := by simpa using hk
      have h := ih k hk2
      simp only [List.getD_cons_succ, List.eraseIdx_cons_succ]
      exact (List.Perm.swap a _ _).trans (List.Perm.cons a h)

theorem completionOrder_perm {α : Type} (fuel : Nat) (sched : List Nat) (l : List α)
    (h : l.length ≤ fuel) : (errgroup.completionOrder fuel sched l).Perm l := by
  induction fuel generalizing sched l with
  | zero =>
    have : l = [] := List.length_eq_zero.mp (Nat.le_zero.mp h)
    subst this
    simp [errgroup.completionOrder]
  | succ fuel ih =>
    cases l with
    | nil => simp [errgroup.completionOrder]
    | cons t ts =>
      simp only [errgroup.completionOrder]
      have hk : sched.headD 0 % (ts.length + 1) < (t :: ts).length := by
        simpa using Nat.mod_lt _ (Nat.succ_pos _)
      have hlen : ((t :: ts).eraseIdx (sched.headD 0 % (ts.length + 1))).length ≤ fuel := by
        rw [List.length_eraseIdx]
        simp only [hk, ↓reduceIte]
        simp at h ⊢
        omega
      exact (List.Perm.cons _ (ih sched.tail _ hlen)).trans
        (getD_cons_eraseIdx_perm (t :: ts) _ t hk)

theorem getD_map_apply {α β : Type} (f : α → β) (l : List α) (k : Nat) (d : α) :
    (l.map f).getD k (f d) = f (l.getD k d) := by
  induction l generalizing k with
  | nil => simp
  | cons a l ih => cases k <;> simp [ih]

theorem eraseIdx_map_apply {α β : Type} (f : α → β) (l : List α) (k : Nat) :
    (l.map f).eraseIdx k = (l.eraseIdx k).map f := by
  induction l generalizing k with
  | nil => simp
  | cons a l ih => cases k <;> simp [ih]

theorem completionOrder_map {α β : Type} (f : α → β) (fuel : Nat) (sched : List Nat)
    (l : List α) :
    errgroup.completionOrder fuel sched (l.map f) = (errgroup.completionOrder fuel sched l).map f := by
  induction fuel generalizing sched l with
  | zero => simp [errgroup.completionOrder]
  | succ fuel ih =>
    cases l with
    | nil => simp [errgroup.completionOrder]
    | cons t ts =>
      simp only [List.map_cons, errgroup.completionOrder, List.length_map]
      rw [← List.map_cons, getD_map_apply, eraseIdx_map_apply, ih]

theorem exists_getD_of_mem {α : Type} (l : List α) (x d : α) (h : x ∈ l) :
    ∃ k, k < l.length ∧ l.getD k d = x := by
  obtain ⟨k, hk, hx⟩ := List.getElem_of_mem h
  exact ⟨k, hk, by simp [List.getD_eq_getElem?_getD, List.getElem?_eq_getElem hk, hx]⟩

/-- Every order of completion is produced by some schedule. -/
theorem completionOrder_complete {α : Type} (p l : List α) (h : p.Perm l) :
    ∃ sched, errgroup.completionOrder l.length sched l = p := by
  induction p generalizing l with
  | nil =>
    have : l = [] := List.Perm.eq_nil h.symm
    subst this
    exact ⟨[], rfl⟩
  | cons x p ih =>
    cases l with
    | nil => exact absurd h.length_eq (by simp)
    | cons t ts =>
      have hx : x ∈ t :: ts := h.mem_iff.mp (List.mem_cons_self _ _)
      obtain ⟨k, hk, hget⟩ := exists_getD_of_mem (t :: ts) x t hx
      have hperm : p.Perm ((t :: ts).eraseIdx k) := by
        have h1 := getD_cons_eraseIdx_perm (t :: ts) k t hk
        rw [hget] at h1
        exact List.Perm.cons_inv (h.trans h1.symm)
      obtain ⟨sched, hs⟩ := ih _ hperm
      have hlen : ((t :: ts).eraseIdx k).length = ts.length := by
        have hk2 : k < ts.length + 1 := by simpa using hk
        rw [List.length_eraseIdx]
        simp [hk2]
      have hmod : k % (ts.length + 1) = k := Nat.mod_eq_of_lt (by simpa using hk)
      refine ⟨k :: sched, ?_⟩
      simp only [List.length_cons, errgroup.completionOrder, List.headD_cons, List.tail_cons,
        hmod, hget]
      rw [← hlen, hs]

theorem loop_eq (ctx : GoContext) (subject message : String) (slots : List (Option Notifier))
    (g : errgroup.Group) :
    slots.foldl
      (fun (eg : errgroup.Group) (service : Option Notifier) =>
        match service with
        | none => eg
        | some service => eg.Go (fun w => service.Send ctx subject message w)) g
    = { err := g.err,
        pending := g.pending ++ (slots.filterMap id).map (sendTask ctx subject message) } := by
  induction slots generalizing g with
  | nil => simp
  | cons a slots ih =>
    cases a with
    | none => simpa using ih g
    | some s =>
      simp only [List.foldl_cons, List.filterMap_cons_some, id_eq, List.map_cons]
      rw [ih]
      simp only [errgroup.Group.Go, List.append_assoc, List.singleton_append]
      rfl

theorem foldl_complete (ctx : GoContext) (subject message : String) (l : List Notifier)
    (e : error) (w : World) :
    (l.map (sendTask ctx subject message)).foldl errgroup.Group.complete (e, w)
    = ((match e with
        | some first => some first
        | none => firstFailure ctx subject message l),
       w ++ l.map (Notifier.record ctx subject message)) := by
  induction l generalizing e w with
  | nil => cases e <;> simp [firstFailure]
  | cons s l ih =>
    simp only [List.map_cons, List.foldl_cons]
    cases hr : s.reply ctx subject message with
    | none =>
      have : errgroup.Group.complete (e, w) (sendTask ctx subject message s)
          = (e, w ++ [s.record ctx subject message]) := by
        simp [errgroup.Group.complete, sendTask, Notifier.Send, hr]
      rw [this, ih]
      cases e <;> simp [firstFailure, List.findSome?_cons, hr]
    | some x =>
      cases e with
      | none =>
        have : errgroup.Group.complete (none, w) (sendTask ctx subject message s)
            = (some x, w ++ [s.record ctx subject message]) := by
          simp [errgroup.Group.complete, sendTask, Notifier.Send, hr]
        rw [this, ih]
        simp [firstFailure, List.findSome?_cons, hr]
      | some y =>
        have : errgroup.Group.complete (some y, w) (sendTask ctx subject message s)
            = (some y, w ++ [s.record ctx subject message]) := by
          simp [errgroup.Group.complete, sendTask, Notifier.Send, hr]
        rw [this, ih]
        simp

theorem effectiveCtx_eq (ctx : GoContext) :
    (match ctx with
      | none => some Context.Background
      | some c => some c) = effectiveCtx ctx := by
  cases ctx <;> rfl

/-- What an enabled engine's `send` computes: the notifiers are called in
completion order, each once, with the effective context, and the first failure
in that order, if any, is wrapped around the sentinel. -/
theorem send_enabled (S : GoError) (n : Notify) (sched : List Nat) (ctx : GoContext)
    (subject message : String) (w : World) (h : n.Disabled = false) :
    n.send S sched ctx subject message w
    = ((match firstFailure (effectiveCtx ctx) subject message (n.completion sched) with
        | some err => errors.Wrap (some S) err.Error
        | none => none),
       w ++ (n.completion sched).map (Notifier.record (effectiveCtx ctx) subject message)) := by
  unfold Notify.send
  simp only [h, Bool.false_eq_true, ↓reduceIte]
  rw [effectiveCtx_eq, loop_eq]
  simp only [errgroup.Group.Wait, errgroup.Group.zero, List.nil_append, List.length_map]
  rw [completionOrder_map, foldl_complete]
  simp only [Notify.completion, Notify.registered]
  cases firstFailure (effectiveCtx ctx) subject message
    (errgroup.completionOrder (List.filterMap id n.notifiers).length sched
      (List.filterMap id n.notifiers)) <;> rfl

theorem completion_perm (n : Notify) (sched : List Nat) :
    (n.completion sched).Perm n.registered :=
  completionOrder_perm _ _ _ (Nat.le_refl _)

theorem mem_registered (n : Notify) (s : Notifier) :
    s ∈ n.registered ↔ some s ∈ n.notifiers := by
  simp [Notify.registered, List.mem_filterMap]

theorem firstFailure_eq_none (ctx : GoContext) (subject message : String) (l : List Notifier) :
    firstFailure ctx subject message l = none ↔ ∀ s ∈ l, s.reply ctx subject message = none := by
  simp [firstFailure]

theorem firstFailure_eq_some (ctx : GoContext) (subject message : String) (l : List Notifier)
    (e : GoError) (h : firstFailure ctx subject message l = some e) :
    ∃ pre s post, l = pre ++ s :: post ∧ (∀ p ∈ pre, p.reply ctx subject message = none) ∧
      s.reply ctx subject message = some e := by
  induction l with
  | nil => simp [firstFailure] at h
  | cons a l ih =>
    cases hr : a.reply ctx subject message with
    | none =>
      have h2 : firstFailure ctx subject message l = some e := by
        simpa [firstFailure, List.findSome?_cons, hr] using h
      obtain ⟨pre, s, post, hl, hpre, hs⟩ := ih h2
      refine ⟨a :: pre, s, post, by simp [hl], ?_, hs⟩
      intro p hp
      rcases List.mem_cons.mp hp with rfl | hp
      · exact hr
      · exact hpre p hp
    | some x =>
      have hx : x = e := by
        simpa [firstFailure, List.findSome?_cons, hr] using h
      subst hx
      exact ⟨[], a, l, rfl, by simp, hr⟩

/-! ## Lemmas on the adapters -/

theorem pushbullet_sendLoop_client (pb pb2 : pushbullet.Pushbullet) (subject message : String)
    (h : pb.client = pb2.client) (l : List String) (w : List pushbullet.Push) :
    pb.sendLoop subject message l w = pb2.sendLoop subject message l w := by
  induction l generalizing w with
  | nil => rfl
  | cons nick rest ih =>
    simp only [pushbullet.Pushbullet.sendLoop, h]
    cases pb2.client.Device nick with
    | error e => exact ih w
    | ok dev =>
      simp only [pushbullet.Device.PushNote]
      cases dev.reply subject message with
      | none => exact ih _
      | some e => rfl

theorem pushbullet_sendLoop_skip (pb : pushbullet.Pushbullet) (subject message : String)
    (nick : String) (err : GoError) (h : pb.client.Device nick = .error err)
    (pre post : List String) (w : List pushbullet.Push) :
    pb.sendLoop subject message (pre ++ nick :: post) w
      = pb.sendLoop subject message (pre ++ post) w := by
  induction pre generalizing w with
  | nil => simp [pushbullet.Pushbullet.sendLoop, h]
  | cons a pre ih =>
    simp only [List.cons_append, pushbullet.Pushbullet.sendLoop]
    cases pb.client.Device a with
    | error e => exact ih w
    | ok dev =>
      simp only [pushbullet.Device.PushNote]
      cases dev.reply subject message with
      | none => exact ih _
      | some e => rfl

theorem pushbullet_sendLoop_spec (pb : pushbullet.Pushbullet) (subject message : String)
    (l : List String) (w : List pushbullet.Push) :
    ((pb.sendLoop subject message l w).1 = none ↔
      ∀ nick ∈ l, ∀ dev, pb.client.Device nick = .ok dev → dev.reply subject message = none) ∧
    ((pb.sendLoop subject message l w).1 = none →
      (pb.sendLoop subject message l w).2 = w ++ l.filterMap (pb.noteFor subject message)) ∧
    (∀ e, (pb.sendLoop subject message l w).1 = some e →
      ∃ nick dev cause, nick ∈ l ∧ pb.client.Device nick = .ok dev ∧
        dev.reply subject message = some cause ∧
        e = .withStack (.withMessage cause (pushbullet.failedToSend nick))) := by
  induction l generalizing w with
  | nil => simp [pushbullet.Pushbullet.sendLoop]
  | cons nick rest ih =>
    cases hd : pb.client.Device nick with
    | error x =>
      have hstep : pb.sendLoop subject message (nick :: rest) w
          = pb.sendLoop subject message rest w := by
        simp [pushbullet.Pushbullet.sendLoop, hd]
      have hnote : pb.noteFor subject message nick = none := by
        simp [pushbullet.Pushbullet.noteFor, hd]
      rw [hstep]
      obtain ⟨h1, h2, h3⟩ := ih w
      refine ⟨?_, ?_, ?_⟩
      · rw [h1]
        constructor
        · intro hall n hn dev hdev
          rcases List.mem_cons.mp hn with rfl | hn
          · rw [hd] at hdev; cases hdev
          · exact hall n hn dev hdev
        · intro hall n hn dev hdev
          exact hall n (List.mem_cons_of_mem _ hn) dev hdev
      · intro hnone
        rw [h2 hnone, List.filterMap_cons_none hnote]
      · intro e he
        obtain ⟨n, dev, cause, hn, hr⟩ := h3 e he
        exact ⟨n, dev, cause, List.mem_cons_of_mem _ hn, hr⟩
    | ok dev =>
      have hnote : pb.noteFor subject message nick
          = some { device := dev.Iden, title := subject, body := message } := by
        simp [pushbullet.Pushbullet.noteFor, hd]
      cases hr : dev.reply subject message with
      | none =>
        have hstep : pb.sendLoop subject message (nick :: rest) w
            = pb.sendLoop subject message rest
                (w ++ [{ device := dev.Iden, title := subject, body := message }]) := by
          simp [pushbullet.Pushbullet.sendLoop, hd, pushbullet.Device.PushNote, hr]
        rw [hstep]
        obtain ⟨h1, h2, h3⟩ := ih (w ++ [{ device := dev.Iden, title := subject, body := message }])
        refine ⟨?_, ?_, ?_⟩
        · rw [h1]
          constructor
          · intro hall n hn d hdev
            rcases List.mem_cons.mp hn with rfl | hn
            · rw [hd] at hdev
              cases hdev
              exact hr
            · exact hall n hn d hdev
          · intro hall n hn d hdev
            exact hall n (List.mem_cons_of_mem _ hn) d hdev
        · intro hnone
          rw [h2 hnone, List.filterMap_cons_some hnote]
          simp
        · intro e he
          obtain ⟨n, d, cause, hn, hrest⟩ := h3 e he
          exact ⟨n, d, cause, List.mem_cons_of_mem _ hn, hrest⟩
      | some cause =>
        have hstep : pb.sendLoop subject message (nick :: rest) w
            = (some (.withStack (.withMessage cause (pushbullet.failedToSend nick))),
                w ++ [{ device := dev.Iden, title := subject, body := message }]) := by
          simp [pushbullet.Pushbullet.sendLoop, hd, pushbullet.Device.PushNote, hr, errors.Wrapf]
        rw [hstep]
        refine ⟨?_, ?_, ?_⟩
        · constructor
          · intro hcon; cases hcon
          · intro hall
            have := hall nick (List.mem_cons_self _ _) dev hd
            rw [hr] at this
            cases this
        · intro hcon; cases hcon
        · intro e he
          refine ⟨nick, dev, cause, List.mem_cons_self _ _, hd, hr, ?_⟩
          cases he
          rfl

theorem contains_failedToSend (cause : GoError) (nick : String) :
    Contains (GoError.withStack (.withMessage cause (pushbullet.failedToSend nick))).Error nick := by
  refine ⟨"failed to send message to Pushbullet device with nickname '".data,
    ("'" ++ ": " ++ cause.Error).data, ?_⟩
  simp [GoError.Error, pushbullet.failedToSend]

theorem wechat_sendLoop_all (s : wechat.Service) (c : Context) (subject content : String)
    (hc : c.cancelledFrom = none) (l : List String) (poll : Nat)
    (w : List wechat.CustomerMessage)
    (hall : ∀ u ∈ l, s.messageManager.reply (wechat.textFor subject content u) = none) :
    s.sendLoop (some c) subject content poll l w
      = (.returned none, w ++ l.map (wechat.textFor subject content)) := by
  induction l generalizing poll w with
  | nil => simp [wechat.Service.sendLoop]
  | cons u rest ih =>
    have hu := hall u (List.mem_cons_self _ _)
    simp only [wechat.textFor] at hu
    simp only [wechat.Service.sendLoop, Context.Done, hc, Bool.false_eq_true, ↓reduceIte,
      wechat.wechatMessageManager.Send, hu]
    rw [ih (poll + 1) _ (fun v hv => hall v (List.mem_cons_of_mem _ hv))]
    simp [wechat.textFor]

theorem wechat_sendLoop_fail (s : wechat.Service) (c : Context) (subject content : String)
    (hc : c.cancelledFrom = none) (pre : List String) (u : String) (post : List String)
    (e : GoError) (poll : Nat) (w : List wechat.CustomerMessage)
    (hpre : ∀ p ∈ pre, s.messageManager.reply (wechat.textFor subject content p) = none)
    (hu : s.messageManager.reply (wechat.textFor subject content u) = some e) :
    s.sendLoop (some c) subject content poll (pre ++ u :: post) w
      = (.returned (errors.Wrapf (some e) (wechat.failedToSend u)),
         w ++ (pre ++ [u]).map (wechat.textFor subject content)) := by
  induction pre generalizing poll w with
  | nil =>
    simp only [wechat.textFor] at hu
    simp [wechat.Service.sendLoop, Context.Done, hc, wechat.wechatMessageManager.Send, hu,
      wechat.textFor]
  | cons a pre ih =>
    have ha := hpre a (List.mem_cons_self _ _)
    simp only [wechat.textFor] at ha
    simp only [List.cons_append, wechat.Service.sendLoop, Context.Done, hc, Bool.false_eq_true,
      ↓reduceIte, wechat.wechatMessageManager.Send, ha, List.append_eq]
    rw [ih (poll + 1) _ (fun v hv => hpre v (List.mem_cons_of_mem _ hv))]
    simp [wechat.textFor]

theorem registered_removeNilSlots (n : Notify) : (removeNilSlots n).registered = n.registered := by
  simp only [removeNilSlots, Notify.registered]
  induction n.notifiers with
  | nil => rfl
  | cons a l ih => cases a <;> simp [List.filter_cons, ih]

/-! ## The dispatch engine -/

/-- C1: on a disabled engine `Send` returns nil and leaves the invocation log
as it was (no notifier is invoked), whatever the registered notifiers, the
schedule, the context, the subject and the message. -/
theorem send_disabled_is_noop (S : GoError) (n : Notify) (sched : List Nat) (ctx : GoContext)
    (subject message : String) (w : World) (h : n.Disabled = true) :
    n.Send S sched ctx subject message w = (none, w) := by
  simp [Notify.Send, Notify.send, h]

/-- C1 on the disabled example engine, whose second notifier would fail. -/
theorem send_disabled_is_noop_witness :
    exampleDisabled.Disabled = true ∧
    exampleDisabled.Send exampleSentinel [1] (some exampleCtx) "Alert" "disk full" []
      = (none, []) :=
  ⟨rfl, send_disabled_is_noop exampleSentinel exampleDisabled [1] (some exampleCtx)
    "Alert" "disk full" [] rfl⟩

/-- C2: on an enabled engine `Send` returns nil exactly when every non-nil
registered notifier's `Send` returns nil; so it returns nil when every slot is
nil (in particular for the empty list) and a non-nil error as soon as one
notifier fails. -/
theorem send_nil_iff_all_succeed (S : GoError) (n : Notify) (sched : List Nat)
    (ctx : GoContext) (subject message : String) (w : World) (h : n.Disabled = false) :
    ((n.Send S sched ctx subject message w).1 = none ↔
      ∀ s, some s ∈ n.notifiers → s.reply (effectiveCtx ctx) subject message = none) ∧
    ((∀ slot ∈ n.notifiers, slot = none) → (n.Send S sched ctx subject message w).1 = none) ∧
    (∀ s, some s ∈ n.notifiers → s.reply (effectiveCtx ctx) subject message ≠ none →
      (n.Send S sched ctx subject message w).1 ≠ none) := by
  have key : (n.Send S sched ctx subject message w).1 = none ↔
      ∀ s, some s ∈ n.notifiers → s.reply (effectiveCtx ctx) subject message = none := by
    unfold Notify.Send
    rw [send_enabled S n sched ctx subject message w h]
    constructor
    · intro hres s hs
      cases hff : firstFailure (effectiveCtx ctx) subject message (n.completion sched) with
      | none =>
        exact (firstFailure_eq_none _ _ _ _).mp hff s
          ((completion_perm n sched).mem_iff.mpr ((mem_registered n s).mpr hs))
      | some e => simp [hff, errors.Wrap] at hres
    · intro hall
      have : firstFailure (effectiveCtx ctx) subject message (n.completion sched) = none :=
        (firstFailure_eq_none _ _ _ _).mpr (fun s hs =>
          hall s ((mem_registered n s).mp ((completion_perm n sched).mem_iff.mp hs)))
      simp [this]
  refine ⟨key, ?_, ?_⟩
  · intro hnil
    exact key.mpr (fun s hs => absurd (hnil _ hs) (by simp))
  · intro s hs hfail hres
    exact hfail (key.mp hres s hs)

/-- C2 on the example engine: B fails, so the result is not nil. -/
theorem send_nil_iff_all_succeed_witness :
    exampleEngine.Disabled = false ∧
    (exampleEngine.Send exampleSentinel [] none "Alert" "disk full" []).1 ≠ none :=
  ⟨rfl, (send_nil_iff_all_succeed exampleSentinel exampleEngine [] none "Alert" "disk full" []
    rfl).2.2 exampleB (by simp [exampleEngine]) (by simp [exampleB])⟩

/-- C3: on an enabled engine with at least one failing notifier, the error
`Send` returns is the sentinel `ErrSendNotification` wrapped with the error text
of one of the notifiers that failed: the sentinel is the wrapped cause, the
root cause is the sentinel's (the sentinel itself when it was built by
`errors.New`), and the returned text is that notifier's text followed by ": "
and the sentinel's text, so it contains the notifier's text. -/
theorem send_error_wraps_sentinel (S : GoError) (n : Notify) (sched : List Nat)
    (ctx : GoContext) (subject message : String) (w : World) (h : n.Disabled = false)
    (hfail : ∃ s, some s ∈ n.notifiers ∧ s.reply (effectiveCtx ctx) subject message ≠ none) :
    ∃ s e, some s ∈ n.notifiers ∧ s.reply (effectiveCtx ctx) subject message = some e ∧
      (n.Send S sched ctx subject message w).1 = some (.withStack (.withMessage S e.Error)) ∧
      errors.Cause (.withStack (.withMessage S e.Error)) = errors.Cause S ∧
      (∀ text, S = errors.New text →
        errors.Cause (.withStack (.withMessage S e.Error)) = S) ∧
      (GoError.withStack (.withMessage S e.Error)).Error = e.Error ++ ": " ++ S.Error ∧
      Contains (GoError.withStack (.withMessage S e.Error)).Error e.Error := by
  obtain ⟨f, hf, hne⟩ := hfail
  cases hff : firstFailure (effectiveCtx ctx) subject message (n.completion sched) with
  | none =>
    exact absurd ((firstFailure_eq_none _ _ _ _).mp hff f
      ((completion_perm n sched).mem_iff.mpr ((mem_registered n f).mpr hf))) hne
  | some e =>
    obtain ⟨pre, s, post, hl, _, hs⟩ := firstFailure_eq_some _ _ _ _ e hff
    have hmem : some s ∈ n.notifiers :=
      (mem_registered n s).mp ((completion_perm n sched).mem_iff.mp (by simp [hl]))
    refine ⟨s, e, hmem, hs, ?_, rfl, ?_, rfl, ?_⟩
    · unfold Notify.Send
      rw [send_enabled S n sched ctx subject message w h]
      simp [hff, errors.Wrap]
    · intro text hS
      subst hS
      rfl
    · refine ⟨[], (": " ++ S.Error).data, ?_⟩
      simp [GoError.Error]

/-- C3 on the example engine: the returned text contains "device unreachable". -/
theorem send_error_wraps_sentinel_witness :
    exampleEngine.Disabled = false ∧
    (exampleEngine.Send exampleSentinel [1] (some exampleCtx) "Alert" "disk full" []).1.map
      GoError.Error = some "device unreachable: send notification" ∧
    (∃ s e, some s ∈ exampleEngine.notifiers ∧
      s.reply (effectiveCtx (some exampleCtx)) "Alert" "disk full" = some e ∧
      (exampleEngine.Send exampleSentinel [1] (some exampleCtx) "Alert" "disk full" []).1
        = some (.withStack (.withMessage exampleSentinel e.Error)) ∧
      errors.Cause (.withStack (.withMessage exampleSentinel e.Error))
        = errors.Cause exampleSentinel ∧
      (∀ text, exampleSentinel = errors.New text →
        errors.Cause (.withStack (.withMessage exampleSentinel e.Error)) = exampleSentinel) ∧
      (GoError.withStack (.withMessage exampleSentinel e.Error)).Error
        = e.Error ++ ": " ++ exampleSentinel.Error ∧
      Contains (GoError.withStack (.withMessage exampleSentinel e.Error)).Error e.Error) :=
  ⟨rfl, by decide, send_error_wraps_sentinel exampleSentinel exampleEngine [1] (some exampleCtx)
    "Alert" "disk full" [] rfl ⟨exampleB, by simp [exampleEngine], by simp [exampleB]⟩⟩

/-- C4: on an enabled engine one `Send` call appends to the invocation log
exactly one record per non-nil slot: the new records are a permutation of the
non-nil registered notifiers' records, so there are as many as non-nil slots,
whatever errors the notifiers return. -/
theorem send_invokes_each_once (S : GoError) (n : Notify) (sched : List Nat)
    (ctx : GoContext) (subject message : String) (w : World) (h : n.Disabled = false) :
    ∃ log, (n.Send S sched ctx subject message w).2 = w ++ log ∧
      log.Perm ((n.notifiers.filterMap id).map
        (Notifier.record (effectiveCtx ctx) subject message)) ∧
      log.length = (n.notifiers.filterMap id).length := by
  refine ⟨(n.completion sched).map (Notifier.record (effectiveCtx ctx) subject message),
    ?_, ?_, ?_⟩
  · unfold Notify.Send
    rw [send_enabled S n sched ctx subject message w h]
  · exact (completion_perm n sched).map _
  · rw [List.length_map]
    exact (completion_perm n sched).length_eq

/-- C4 on an engine with two failing notifiers: both are invoked. -/
theorem send_invokes_each_once_witness :
    exampleTwoFail.Disabled = false ∧
    (exampleTwoFail.Send exampleSentinel [1] none "Alert" "disk full" []).2.map
      (fun inv => inv.service) = [3, 2] ∧
    ∃ log, (exampleTwoFail.Send exampleSentinel [1] none "Alert" "disk full" []).2 = [] ++ log ∧
      log.Perm ((exampleTwoFail.notifiers.filterMap id).map
        (Notifier.record (effectiveCtx none) "Alert" "disk full")) ∧
      log.length = (exampleTwoFail.notifiers.filterMap id).length :=
  ⟨rfl, by decide,
    send_invokes_each_once exampleSentinel exampleTwoFail [1] none "Alert" "disk full" [] rfl⟩

/-- C5: for every engine and every schedule, `Send` on a registration list with
nil slots returns the same error and leaves the same invocation log as `Send`
on the list with the nil slots removed; a list of nil slots only yields nil and
no invocation. -/
theorem send_skips_nil_slots (S : GoError) (n : Notify) (sched : List Nat)
    (ctx : GoContext) (subject message : String) (w : World) :
    n.Send S sched ctx subject message w
      = (removeNilSlots n).Send S sched ctx subject message w ∧
    ((∀ slot ∈ n.notifiers, slot = none) →
      n.Send S sched ctx subject message w = (none, w)) := by
  have hreg := registered_removeNilSlots n
  cases h : n.Disabled with
  | true =>
    have h2 : (removeNilSlots n).Disabled = true := h
    simp [Notify.Send, Notify.send, h, h2]
  | false =>
    have h2 : (removeNilSlots n).Disabled = false := h
    unfold Notify.Send
    rw [send_enabled S n sched ctx subject message w h,
      send_enabled S (removeNilSlots n) sched ctx subject message w h2]
    have hc : (removeNilSlots n).completion sched = n.completion sched := by
      simp only [Notify.completion, hreg]
    refine ⟨by rw [hc], ?_⟩
    intro hnil
    have hr : n.registered = [] := by
      simp only [Notify.registered, List.filterMap_eq_nil_iff]
      intro a ha
      simp [hnil a ha]
    have hc2 : n.completion sched = [] := by
      have := (completion_perm n sched)
      rw [hr] at this
      exact List.Perm.eq_nil this
    simp [hc2, firstFailure]

/-- C5 on the example engine, whose third slot is nil. -/
theorem send_skips_nil_slots_witness :
    (removeNilSlots exampleEngine).notifiers.length = 2 ∧
    (exampleEngine.Send exampleSentinel [1] none "Alert" "disk full" []).2.map
      (fun inv => inv.service) = [2, 1] ∧
    exampleEngine.Send exampleSentinel [1] none "Alert" "disk full" []
      = (removeNilSlots exampleEngine).Send exampleSentinel [1] none "Alert" "disk full" [] :=
  ⟨by decide, by decide,
    (send_skips_nil_slots exampleSentinel exampleEngine [1] none "Alert" "disk full" []).1⟩

/-- C6: every record a `Send` call adds to the invocation log carries exactly
the subject and message of the call, and as context the caller's when it is
non-nil and the background context when it is nil, never a nil context; and
`Send` with a nil context gives the same result as with the background
context. -/
theorem send_passes_arguments (S : GoError) (n : Notify) (sched : List Nat)
    (ctx : GoContext) (subject message : String) (w : World) :
    (∃ log, (n.Send S sched ctx subject message w).2 = w ++ log ∧
      (n.Disabled = false → log.length = (n.notifiers.filterMap id).length) ∧
      ∀ inv ∈ log, inv.subject = subject ∧ inv.message = message ∧
        (∀ c, ctx = some c → inv.ctx = some c) ∧
        (ctx = none → inv.ctx = some Context.Background) ∧
        inv.ctx ≠ none) ∧
    n.Send S sched none subject message w
      = n.Send S sched (some Context.Background) subject message w := by
  constructor
  · cases h : n.Disabled with
    | true =>
      refine ⟨[], ?_, ?_, ?_⟩
      · simp [Notify.Send, Notify.send, h]
      · intro hd; cases hd
      · intro inv hinv; cases hinv
    | false =>
      refine ⟨(n.completion sched).map (Notifier.record (effectiveCtx ctx) subject message),
        ?_, ?_, ?_⟩
      · unfold Notify.Send
        rw [send_enabled S n sched ctx subject message w h]
      · intro _
        rw [List.length_map]
        exact (completion_perm n sched).length_eq
      · intro inv hinv
        obtain ⟨s, _, rfl⟩ := List.mem_map.mp hinv
        refine ⟨rfl, rfl, ?_, ?_, ?_⟩
        · intro c hc; subst hc; rfl
        · intro hc; subst hc; rfl
        · simp [Notifier.record, effectiveCtx]
  · cases h : n.Disabled with
    | true => simp [Notify.Send, Notify.send, h]
    | false =>
      unfold Notify.Send
      rw [send_enabled S n sched none subject message w h,
        send_enabled S n sched (some Context.Background) subject message w h]
      rfl

/-- C6 on the example engine called with a nil context. -/
theorem send_passes_arguments_witness :
    (exampleEngine.Send exampleSentinel [] none "Alert" "disk full" []).2
      = [{ service := 1, ctx := some Context.Background, subject := "Alert",
           message := "disk full" },
         { service := 2, ctx := some Context.Background, subject := "Alert",
           message := "disk full" }] ∧
    exampleEngine.Send exampleSentinel [] none "Alert" "disk full" []
      = exampleEngine.Send exampleSentinel [] (some Context.Background) "Alert" "disk full" [] :=
  ⟨by decide,
    (send_passes_arguments exampleSentinel exampleEngine [] none "Alert" "disk full" []).2⟩

/-- C10, as the code behaves: on an enabled engine on which two or more
notifiers fail, the returned error carries the message of exactly one failure,
that of the first notifier to fail in completion order (every notifier
completing before it succeeded): the result is the sentinel wrapped with that
message, its text being the message followed by ": " and the sentinel's text. -/
theorem send_keeps_first_failure (S : GoError) (n : Notify) (sched : List Nat)
    (ctx : GoContext) (subject message : String) (w : World) (h : n.Disabled = false)
    (h2 : 2 ≤ ((n.notifiers.filterMap id).filter
      (fun s => (s.reply (effectiveCtx ctx) subject message).isSome)).length) :
    ∃ pre s post e, n.completion sched = pre ++ s :: post ∧
      (∀ p ∈ pre, p.reply (effectiveCtx ctx) subject message = none) ∧
      s.reply (effectiveCtx ctx) subject message = some e ∧
      n.Send S sched ctx subject message w
        = (some (.withStack (.withMessage S e.Error)),
           w ++ (pre ++ s :: post).map (Notifier.record (effectiveCtx ctx) subject message)) ∧
      (GoError.withStack (.withMessage S e.Error)).Error = e.Error ++ ": " ++ S.Error := by
  cases hff : firstFailure (effectiveCtx ctx) subject message (n.completion sched) with
  | none =>
    have hall := (firstFailure_eq_none _ _ _ _).mp hff
    have hnil : (n.notifiers.filterMap id).filter
        (fun s => (s.reply (effectiveCtx ctx) subject message).isSome) = [] := by
      rw [List.filter_eq_nil_iff]
      intro a ha
      have := hall a ((completion_perm n sched).mem_iff.mpr ha)
      simp [this]
    rw [hnil] at h2
    simp at h2
  | some e =>
    obtain ⟨pre, s, post, hl, hpre, hs⟩ := firstFailure_eq_some _ _ _ _ e hff
    refine ⟨pre, s, post, e, hl, hpre, hs, ?_, rfl⟩
    unfold Notify.Send
    rw [send_enabled S n sched ctx subject message w h, hff, hl]
    rfl

/-- C10 on an engine with two failing notifiers, C completing first. -/
theorem send_keeps_first_failure_witness :
    exampleTwoFail.Disabled = false ∧
    (exampleTwoFail.Send exampleSentinel [1] none "Alert" "disk full" []).2.map
      (fun inv => inv.service) = [3, 2] ∧
    (exampleTwoFail.Send exampleSentinel [1] none "Alert" "disk full" []).1.map GoError.Error
      = some "quota exceeded: send notification" ∧
    ∃ pre s post e, exampleTwoFail.completion [1] = pre ++ s :: post ∧
      (∀ p ∈ pre, p.reply (effectiveCtx none) "Alert" "disk full" = none) ∧
      s.reply (effectiveCtx none) "Alert" "disk full" = some e ∧
      exampleTwoFail.Send exampleSentinel [1] none "Alert" "disk full" []
        = (some (.withStack (.withMessage exampleSentinel e.Error)),
           [] ++ (pre ++ s :: post).map (Notifier.record (effectiveCtx none) "Alert" "disk full")) ∧
      (GoError.withStack (.withMessage exampleSentinel e.Error)).Error
        = e.Error ++ ": " ++ exampleSentinel.Error :=
  ⟨rfl, by decide, by decide,
    send_keeps_first_failure exampleSentinel exampleTwoFail [1] none "Alert" "disk full" []
      rfl (by decide)⟩

/-- C10, refuted as stated: on `exampleTwoFail` with the schedule that lets the
goroutines complete in start order, B fails first and C fails last; the
returned error carries B's message "device unreachable", not the message
"quota exceeded" of the last notifier to fail, which does not appear in it. -/
theorem last_writer_counterexample :
    exampleTwoFail.Disabled = false ∧
    exampleTwoFail.notifiers.map (fun slot => slot.map (fun s => s.addr))
      = [some 2, none, some 3] ∧
    exampleB.reply (some Context.Background) "Alert" "disk full"
      = some (errors.New "device unreachable") ∧
    exampleC.reply (some Context.Background) "Alert" "disk full"
      = some (errors.New "quota exceeded") ∧
    (exampleTwoFail.Send exampleSentinel [] none "Alert" "disk full" []).2.map
      (fun inv => inv.service) = [2, 3] ∧
    (exampleTwoFail.Send exampleSentinel [] none "Alert" "disk full" []).1.map GoError.Error
      = some "device unreachable: send notification" ∧
    ¬ Contains "device unreachable: send notification" "quota exceeded" := by
  decide

/-! ## The backend adapters -/

/-- C7: the method set of `*wechat.Service` has `Send(context.Context, string,
string) error`, so it implements `Notifier` and accepts the engine's call; the
`Send` of `pushbullet.go` is declared as `Send(subject, message string) error`,
without the context parameter, so `*pushbullet.Pushbullet` does not implement
`Notifier` and does not accept the call `service.Send(ctx, subject, message)`. -/
theorem pushbullet_send_lacks_context :
    implements wechat.methodSet NotifierInterface = true ∧
    acceptsCall wechat.methodSet "Send" ["context.Context", "string", "string"] = true ∧
    implements pushbullet.methodSet NotifierInterface = false ∧
    acceptsCall pushbullet.methodSet "Send" ["context.Context", "string", "string"] = false := by
  decide

/-- C8: a nickname whose device lookup fails is skipped: `Send` returns the
same error and pushes the same notes as without that nickname. `Send` returns
nil exactly when no successfully looked-up device's `PushNote` fails, hence
when every lookup fails or the list is empty, and then a note was pushed to
every looked-up device in order. When a `PushNote` fails, the returned error
wraps that failure with a message naming the device's nickname. -/
theorem pushbullet_send_skips_unregistered (pb : pushbullet.Pushbullet)
    (subject message : String) (w : List pushbullet.Push) :
    (∀ pre nick post err, pb.client.Device nick = .error err →
      (pb.AddReceivers (pre ++ nick :: post)).Send subject message w
        = (pb.AddReceivers (pre ++ post)).Send subject message w) ∧
    ((pb.Send subject message w).1 = none ↔
      ∀ nick ∈ pb.deviceNicknames, ∀ dev, pb.client.Device nick = .ok dev →
        dev.reply subject message = none) ∧
    ((∀ nick ∈ pb.deviceNicknames, ∃ err, pb.client.Device nick = .error err) →
      pb.Send subject message w = (none, w)) ∧
    ((pb.Send subject message w).1 = none →
      (pb.Send subject message w).2
        = w ++ pb.deviceNicknames.filterMap (pb.noteFor subject message)) ∧
    (∀ e, (pb.Send subject message w).1 = some e →
      ∃ nick dev cause, nick ∈ pb.deviceNicknames ∧ pb.client.Device nick = .ok dev ∧
        dev.reply subject message = some cause ∧
        e = .withStack (.withMessage cause (pushbullet.failedToSend nick)) ∧
        errors.Cause e = errors.Cause cause ∧
        Contains e.Error nick) := by
  obtain ⟨h1, h2, h3⟩ := pushbullet_sendLoop_spec pb subject message pb.deviceNicknames w
  have hS : pb.Send subject message w = pb.sendLoop subject message pb.deviceNicknames w := rfl
  rw [hS]
  refine ⟨?_, h1, ?_, h2, ?_⟩
  · intro pre nick post err hd
    simp only [pushbullet.Pushbullet.Send]
    rw [pushbullet_sendLoop_client (pb.AddReceivers (pre ++ nick :: post)) pb subject message rfl,
      pushbullet_sendLoop_client (pb.AddReceivers (pre ++ post)) pb subject message rfl]
    simp only [pushbullet.Pushbullet.AddReceivers]
    rw [← List.append_assoc, ← List.append_assoc]
    exact pushbullet_sendLoop_skip pb subject message nick err hd _ _ w
  · intro hall
    have hnone : (pb.sendLoop subject message pb.deviceNicknames w).1 = none := by
      refine h1.mpr (fun nick hn dev hdev => ?_)
      obtain ⟨err, herr⟩ := hall nick hn
      rw [herr] at hdev
      cases hdev
    have hw := h2 hnone
    have hnil : pb.deviceNicknames.filterMap (pb.noteFor subject message) = [] := by
      rw [List.filterMap_eq_nil_iff]
      intro nick hn
      obtain ⟨err, herr⟩ := hall nick hn
      simp [pushbullet.Pushbullet.noteFor, herr]
    rw [hnil, List.append_nil] at hw
    exact Prod.ext hnone hw
  · intro e he
    obtain ⟨nick, dev, cause, hn, hd, hr, rfl⟩ := h3 e he
    exact ⟨nick, dev, cause, hn, hd, hr, rfl, rfl, contains_failedToSend cause nick⟩

/-- C8 with the unknown nickname "ghost" ahead of known devices. -/
theorem pushbullet_send_skips_unregistered_witness :
    ((pushbullet.New examplePushClient).AddReceivers ["ghost", "phone"]).Send
        "Alert" "disk full" []
      = (none, [{ device := "dev-phone", title := "Alert", body := "disk full" }]) ∧
    (((pushbullet.New examplePushClient).AddReceivers ["ghost", "tablet", "phone"]).Send
        "Alert" "disk full" []).1.map GoError.Error
      = some "failed to send message to Pushbullet device with nickname 'tablet': rate limited" ∧
    ((pushbullet.New examplePushClient).AddReceivers ([] ++ "ghost" :: ["phone"])).Send
        "Alert" "disk full" []
      = ((pushbullet.New examplePushClient).AddReceivers ([] ++ ["phone"])).Send
        "Alert" "disk full" [] :=
  ⟨by decide, by decide,
    (pushbullet_send_skips_unregistered (pushbullet.New examplePushClient)
      "Alert" "disk full" []).1 [] "ghost" ["phone"] (errors.New "device not found") rfl⟩

/-- C9, as the code behaves: for a context that is not cancelled, `Send` hands
the message manager one customer text message per user id, in the order the
ids were added and each with the text subject, newline, content, up to and
including the first user whose send fails. When every send succeeds all users
are served and `Send` returns nil; when one fails `Send` returns that failure
wrapped with a message naming the user, and no later user is served. -/
theorem wechat_send_delivers_until_failure (s : wechat.Service) (userIDs : List String)
    (c : Context) (subject content : String) (w : List wechat.CustomerMessage)
    (hc : c.cancelledFrom = none) :
    ((∀ u ∈ s.userIDs ++ userIDs,
        s.messageManager.reply (wechat.textFor subject content u) = none) →
      (s.AddReceivers userIDs).Send (some c) subject content w
        = (.returned none,
           w ++ (s.userIDs ++ userIDs).map (wechat.textFor subject content))) ∧
    (∀ pre u post e, s.userIDs ++ userIDs = pre ++ u :: post →
      (∀ p ∈ pre, s.messageManager.reply (wechat.textFor subject content p) = none) →
      s.messageManager.reply (wechat.textFor subject content u) = some e →
      (s.AddReceivers userIDs).Send (some c) subject content w
        = (.returned (errors.Wrapf (some e) (wechat.failedToSend u)),
           w ++ (pre ++ [u]).map (wechat.textFor subject content))) ∧
    (∀ u, (wechat.textFor subject content u).ToUser = u ∧
      (wechat.textFor subject content u).Text = subject ++ "\n" ++ content) := by
  refine ⟨?_, ?_, fun u => ⟨rfl, rfl⟩⟩
  · intro hall
    exact wechat_sendLoop_all (s.AddReceivers userIDs) c subject content hc _ 0 w hall
  · intro pre u post e hl hpre hu
    simp only [wechat.Service.Send, wechat.Service.AddReceivers, hl]
    exact wechat_sendLoop_fail { s with userIDs := pre ++ u :: post } c subject content hc
      pre u post e 0 w hpre hu

/-- C9 with two receivers the message manager accepts. -/
theorem wechat_send_delivers_until_failure_witness :
    exampleCtx.cancelledFrom = none ∧
    (exampleWeChat.AddReceivers ["u2", "u3"]).Send (some exampleCtx) "Alert" "disk full" []
      = (.returned none,
         [] ++ (exampleWeChat.userIDs ++ ["u2", "u3"]).map (wechat.textFor "Alert" "disk full")) :=
  ⟨rfl, (wechat_send_delivers_until_failure exampleWeChat ["u2", "u3"] exampleCtx
    "Alert" "disk full" [] rfl).1 (by decide)⟩

/-- C9, refuted as stated: with the receivers "u1" and "u2" added, a context
that is not cancelled and a message manager that rejects the message to "u1",
`Send` returns after the first send: the manager has received the message to
"u1" only, not one message per user id. -/
theorem wechat_send_stops_at_first_failure :
    exampleCtx.cancelledFrom = none ∧
    (exampleWeChat.AddReceivers ["u1", "u2"]).userIDs = ["u1", "u2"] ∧
    (exampleWeChat.AddReceivers ["u1", "u2"]).Send (some exampleCtx) "Alert" "disk full" []
      = (.returned (some (.withStack (.withMessage (errors.New "blocked")
            "failed to send message to WeChat user 'u1'"))),
         [{ ToUser := "u1", Msgtype := "text", Text := "Alert\ndisk full" }]) := by
  decide

end notify
